import Mathlib

/-
Verification of the aipics repository's core behaviours: the post/job
lifecycle (backend resolver `createPost` with the Leonardo polling service),
the cursor feed queries (`feed`, `userPosts`), the like ledger
(`likePost` / `unlikePost`), and the client-side feed window
(Apollo `feed.merge` type policy plus the `useFeed` subscription handler).
Each definition is a shallow embedding of the corresponding TypeScript
function; record stores are explicit values, asynchronous flows are explicit
state traces, and machine integers are Int/Nat.
-/

namespace AIPics

/-- Post status as in the GraphQL `PostStatus` enum and the Prisma column:
`generating`, `completed`, `failed` (the enum has exactly these three values). -/
inductive PostStatus
  | generating
  | completed
  | failed
deriving DecidableEq, Repr

/-- A row of the `posts` table. `createdAt` is the millisecond sort key
(the ISO string cursor in the code is an injective image of it);
`likesCount` is the Prisma `Int` counter. -/
structure Post where
  id : Nat
  userId : Nat
  prompt : String
  imageUrl : String
  leonardoGenerationId : Option String
  status : PostStatus
  likesCount : Int
  createdAt : Nat
deriving DecidableEq, Repr

/-- A row of the `users` table (only the fields the embedded queries read). -/
structure User where
  id : Nat
  username : String
deriving DecidableEq, Repr

/-- The record store: posts, users, and the `(userId, postId)` like edges. -/
structure Store where
  posts : List Post
  users : List User
  likes : List (Nat × Nat)
deriving DecidableEq, Repr

def emptyStore : Store := { posts := [], users := [], likes := [] }

/-! ## utils/validation.ts -/

def promptMinLength : Nat := 3
def promptMaxLength : Nat := 1000
def promptMessage : String := "Prompt must be between 3 and 1000 characters"

/-- JavaScript `String.prototype.trim`: strip whitespace from both ends
(an executable model, working on the character list of the string). -/
def trimChars (s : List Char) : List Char :=
  ((s.dropWhile Char.isWhitespace).reverse.dropWhile Char.isWhitespace).reverse

/-- `prompt.trim()`. -/
def promptTrim (s : String) : String :=
  String.mk (trimChars s.data)

/-- `validatePrompt` from `utils/validation.ts`: trims the prompt and
rejects it when the trimmed length is below 3 or above 1000. -/
def validatePrompt (prompt : String) : Option String :=
  let trimmed := promptTrim prompt
  if trimmed.length < promptMinLength || trimmed.length > promptMaxLength then
    some promptMessage
  else
    none

/-! ## Record-store primitives (Prisma calls used by the resolvers) -/

/-- `prisma.post.findUnique({ where: { id } })`. -/
def findPost (store : Store) (postId : Nat) : Option Post :=
  store.posts.find? (fun p => p.id == postId)

/-- `prisma.post.update({ where: { id }, data })`: apply `f` to the post
with the given id. -/
def setPost (store : Store) (postId : Nat) (f : Post → Post) : Store :=
  { store with posts := store.posts.map (fun p => if p.id == postId then f p else p) }

/-- `prisma.like.findUnique({ where: { userId_postId } })` viewed as a
membership test on the edge list. -/
def likedIn (store : Store) (userId postId : Nat) : Bool :=
  store.likes.any (fun e => e.1 == userId && e.2 == postId)

/-! ## resolvers/like.ts

Both resolvers first reject unauthenticated calls (`userId` null); the
embeddings below model the authenticated path, taking `userId : Nat`. -/

/-- `likePost` from `resolvers/like.ts`: look up the post (error if absent);
try to create the `(userId, postId)` edge — if it already exists the unique
constraint makes the create throw, and the catch block returns the current
post unchanged; otherwise add the edge, increment `likesCount`, and return
the updated post. -/
def likePost (store : Store) (userId postId : Nat) :
    Except String (Store × Option Post) :=
  match findPost store postId with
  | none => Except.error "Post not found"
  | some _ =>
    if likedIn store userId postId then
      Except.ok (store, findPost store postId)
    else
      let s1 := setPost { store with likes := (userId, postId) :: store.likes }
        postId (fun p => { p with likesCount := p.likesCount + 1 })
      match findPost s1 postId with
      | some p => Except.ok (s1, some p)
      | none => Except.error "Record not found"

/-- `unlikePost` from `resolvers/like.ts`: if the `(userId, postId)` edge
exists, delete it and decrement `likesCount`, returning the updated post;
otherwise return the current post unchanged. -/
def unlikePost (store : Store) (userId postId : Nat) :
    Except String (Store × Option Post) :=
  if likedIn store userId postId then
    let s1 := setPost
      { store with likes := store.likes.filter (fun e => !(e.1 == userId && e.2 == postId)) }
      postId (fun p => { p with likesCount := p.likesCount - 1 })
    match findPost s1 postId with
    | some p => Except.ok (s1, some p)
    | none => Except.error "Record not found"
  else
    Except.ok (store, findPost store postId)

/-- The client-visible toggle (`LikeButton.tsx`): call `unlikePost` when the
user currently likes the post, `likePost` otherwise. -/
def toggle (store : Store) (userId postId : Nat) :
    Except String (Store × Option Post) :=
  if likedIn store userId postId then unlikePost store userId postId
  else likePost store userId postId

/-! ## resolvers/post.ts — feed and userPosts queries

`prisma.post.findMany({ where, orderBy: createdAt desc, take: take + 1 })`
is modelled by filtering the posts table, sorting it descending by
`createdAt` (insertion sort), and taking the first `take + 1` records. -/

/-- The `where` clause shared by `feed` and `userPosts`:
`status: "completed"` together with `createdAt: { lt: cursor }` when a
cursor is given. -/
def feedWhere (cursor : Option Nat) (p : Post) : Bool :=
  p.status == PostStatus.completed &&
    (match cursor with
     | none => true
     | some c => p.createdAt < c)

def insertDesc (p : Post) : List Post → List Post
  | [] => [p]
  | q :: qs => if q.createdAt ≤ p.createdAt then p :: q :: qs else q :: insertDesc p qs

/-- `orderBy: { createdAt: "desc" }`. -/
def sortDesc : List Post → List Post
  | [] => []
  | p :: ps => insertDesc p (sortDesc ps)

/-- The number of records the store is asked for by one feed/userPosts page
fetch: `take = Math.min(limit, 50)` and the query uses `take: take + 1`. -/
def feedQueryTake (limit : Nat) : Nat :=
  min limit 50 + 1

/-- The records the `feed` query's `findMany` returns. -/
def feedFetched (store : Store) (cursor : Option Nat) (limit : Nat) : List Post :=
  (sortDesc (store.posts.filter (feedWhere cursor))).take (feedQueryTake limit)

/-- The `PostConnection` result shape. -/
structure PostConnection where
  posts : List Post
  hasMore : Bool
  nextCursor : Option Nat
deriving DecidableEq, Repr

/-- The page-shaping code shared verbatim by `feed` and `userPosts`:
`hasMore = posts.length > take`, `returnPosts = hasMore ? posts.slice(0,-1)
: posts`, `nextCursor` from the last returned record (null on empty page). -/
def connectionOf (fetched : List Post) (take : Nat) : PostConnection :=
  let hasMore : Bool := decide (take < fetched.length)
  let returnPosts := if take < fetched.length then fetched.dropLast else fetched
  { posts := returnPosts
    hasMore := hasMore
    nextCursor := returnPosts.getLast?.map (fun p => p.createdAt) }

/-- The `feed` query from `resolvers/post.ts`. -/
def feed (store : Store) (cursor : Option Nat) (limit : Nat) : PostConnection :=
  connectionOf (feedFetched store cursor limit) (min limit 50)

/-- The records the `userPosts` query's `findMany` returns for a user id. -/
def userPostsFetched (store : Store) (uid : Nat) (cursor : Option Nat) (limit : Nat) :
    List Post :=
  (sortDesc (store.posts.filter (fun p => p.userId == uid && feedWhere cursor p))).take
    (feedQueryTake limit)

/-- The `userPosts` query from `resolvers/post.ts`: resolve the username
(error when absent), then page that user's completed posts exactly as `feed`
does. -/
def userPosts (store : Store) (username : String) (cursor : Option Nat) (limit : Nat) :
    Except String PostConnection :=
  match store.users.find? (fun u => u.username == username) with
  | none => Except.error "User not found"
  | some user =>
    Except.ok (connectionOf (userPostsFetched store user.id cursor limit) (min limit 50))

/-- The `User.postsCount` field resolver:
`prisma.post.count({ where: { userId, status: "completed" } })`. -/
def postsCount (store : Store) (uid : Nat) : Nat :=
  (store.posts.filter (fun p => p.userId == uid && p.status == PostStatus.completed)).length

/-! ## services/leonardo.ts -/

/-- Provider poll status (`PENDING | COMPLETE | FAILED`). -/
inductive GenStatus
  | pending
  | complete
  | failed
deriving DecidableEq, Repr

/-- Result of `getGenerationResult`: the status plus
`generated_images?.[0]?.url` (absent when no image is attached yet). -/
structure GenResult where
  status : GenStatus
  imageUrl : Option String
deriving DecidableEq, Repr

/-- The external provider, as the orchestrator sees it: `createGeneration`
returns a generation id or throws; `pollStatus i` is the result of the
`i`-th `getGenerationResult` call. -/
structure Provider where
  createGeneration : String → Except String String
  pollStatus : Nat → GenResult

/-- The body of `pollForCompletion`'s `for` loop, with the remaining fuel
and the number of polls already made explicit. Each iteration performs one
`getGenerationResult` call; `COMPLETE` with an image url returns it,
`FAILED` throws, anything else waits and retries; exhausting the budget
throws a timeout. The second component is the total number of polls made. -/
def pollLoop (pollStatus : Nat → GenResult) :
    Nat → Nat → Except String String × Nat
  | 0, attempts => (Except.error "Generation timed out", attempts)
  | fuel + 1, attempts =>
    let result := pollStatus attempts
    match result.status with
    | GenStatus.complete =>
      match result.imageUrl with
      | some url => (Except.ok url, attempts + 1)
      | none => pollLoop pollStatus fuel (attempts + 1)
    | GenStatus.failed => (Except.error "Image generation failed", attempts + 1)
    | GenStatus.pending => pollLoop pollStatus fuel (attempts + 1)

/-- `pollForCompletion(generationId, maxAttempts)`;
the source's default budget is `maxAttempts = 30`. -/
def pollForCompletion (pollStatus : Nat → GenResult) (maxAttempts : Nat) :
    Except String String × Nat :=
  pollLoop pollStatus maxAttempts 0

/-! ## resolvers/post.ts — createPost and the asynchronous generation -/

/-- The pub/sub event vocabulary declared in `pubsub.ts`
(`POST_CREATED`, `POST_LIKE_UPDATED`). -/
inductive Event
  | postCreated (postId : Nat)
  | postLikeUpdated (postId : Nat) (likesCount : Int)
deriving DecidableEq, Repr

/-- The synchronous part of the `createPost` mutation: reject when
unauthenticated, reject when `validatePrompt` fails, otherwise insert a new
post with the trimmed prompt, empty `imageUrl` and status `generating`, and
return it immediately (the asynchronous generation runs afterwards). -/
def createPost (store : Store) (userId : Option Nat) (prompt : String)
    (newId now : Nat) : Except String (Store × Post) :=
  match userId with
  | none => Except.error "Authentication required"
  | some uid =>
    match validatePrompt prompt with
    | some msg => Except.error msg
    | none =>
      let post : Post :=
        { id := newId
          userId := uid
          prompt := promptTrim prompt
          imageUrl := ""
          leonardoGenerationId := none
          status := PostStatus.generating
          likesCount := 0
          createdAt := now }
      Except.ok ({ store with posts := post :: store.posts }, post)

def failUpdate (p : Post) : Post :=
  { p with status := PostStatus.failed }

def genIdUpdate (genId : String) (p : Post) : Post :=
  { p with leonardoGenerationId := some genId }

def completeUpdate (url : String) (p : Post) : Post :=
  { p with imageUrl := url, status := PostStatus.completed }

/-- The store states written by `createPost`'s asynchronous IIFE, in order:
on `createGeneration` success the post's `leonardoGenerationId` is stored,
then `pollForCompletion` (budget 30) decides the final write — `imageUrl`
plus status `completed` on success, or status `failed` in the catch block.
A `createGeneration` error jumps straight to the catch block's
`failed` write. -/
def runGenerationTrace (provider : Provider) (prompt : String) (store : Store)
    (postId : Nat) : List Store :=
  match provider.createGeneration prompt with
  | Except.error _ => [setPost store postId failUpdate]
  | Except.ok genId =>
    let s1 := setPost store postId (genIdUpdate genId)
    match (pollForCompletion provider.pollStatus 30).fst with
    | Except.error _ => [s1, setPost s1 postId failUpdate]
    | Except.ok url => [s1, setPost s1 postId (completeUpdate url)]

/-- The complete asynchronous generation flow: the final store, paired with
the list of pub/sub events it publishes. The resolver contains no
`pubsub.publish` call on any path, so the published-event list is empty in
every branch. -/
def runGeneration (provider : Provider) (prompt : String) (store : Store)
    (postId : Nat) : Store × List Event :=
  ((runGenerationTrace provider prompt store postId).getLastD store, [])

/-- Ranking of statuses along the lifecycle: `generating` strictly precedes
the two terminal statuses. -/
def statusRank : PostStatus → Nat
  | PostStatus.generating => 0
  | PostStatus.completed => 1
  | PostStatus.failed => 1

/-- The job's status as observed by `generationStatus` queries after each
store write of its lifecycle (initial insert, then the asynchronous
writes). -/
def jobStatuses (provider : Provider) (prompt : String) (s0 : Store)
    (postId : Nat) : List PostStatus :=
  (s0 :: runGenerationTrace provider prompt s0 postId).filterMap
    (fun s => (findPost s postId).map (fun p => p.status))

/-! ## The client feed window

`utils/apolloClient.ts` (the `feed` type policy's `merge`) and
`hooks/useFeed.ts` (the `postCreated` subscription's `updateQuery`). -/

/-- A post as the feed window sees it (only the identity matters for the
duplication invariant). -/
structure FeedItem where
  id : Nat
  createdAt : Nat
deriving DecidableEq, Repr

/-- The Apollo cache `merge` for `Query.feed` when `args.cursor` is present
(a `loadMore` page): `[...existing.posts, ...incoming.posts]` — plain
concatenation, with no deduplication. -/
def mergePage (window incoming : List FeedItem) : List FeedItem :=
  window ++ incoming

/-- The `updateQuery` handler of the `postCreated` subscription in
`useFeed.ts`: return the window unchanged when the incoming post's id is
already present, otherwise prepend it. -/
def applyInsert (window : List FeedItem) (newPost : FeedItem) : List FeedItem :=
  if window.any (fun post => post.id == newPost.id) then window
  else newPost :: window

/-- One window mutation: a `loadMore` page merge or a real-time insert. -/
inductive FeedOp
  | loadMore (page : List FeedItem)
  | insert (post : FeedItem)
deriving DecidableEq, Repr

def applyOp (window : List FeedItem) : FeedOp → List FeedItem
  | FeedOp.loadMore page => mergePage window page
  | FeedOp.insert post => applyInsert window post

/-- An interleaving of window mutations applied in order. -/
def applyOps (window : List FeedItem) (ops : List FeedOp) : List FeedItem :=
  ops.foldl applyOp window

/-- No two entries of the window share an id. -/
def nodupIds (window : List FeedItem) : Prop :=
  (window.map (fun p => p.id)).Nodup

instance (window : List FeedItem) : Decidable (nodupIds window) := by
  unfold nodupIds; infer_instance

/-- An interleaving is page-disjoint for a window when every `loadMore`
page it merges has internally distinct ids, none of which is already in the
window at merge time (real-time inserts are unrestricted — they
deduplicate themselves). -/
def pagesDisjoint (window : List FeedItem) : List FeedOp → Prop
  | [] => True
  | op :: rest =>
    (match op with
     | FeedOp.loadMore page =>
       nodupIds page ∧ ∀ p ∈ page, ∀ q ∈ window, p.id ≠ q.id
     | FeedOp.insert _ => True) ∧
    pagesDisjoint (applyOp window op) rest

instance instDecidablePagesDisjoint (window : List FeedItem) (ops : List FeedOp) :
    Decidable (pagesDisjoint window ops) := by
  induction ops generalizing window with
  | nil => exact isTrue trivial
  | cons op rest ih =>
    have : Decidable (pagesDisjoint (applyOp window op) rest) := ih _
    unfold pagesDisjoint
    cases op <;> exact instDecidableAnd

/-! ## Store-primitive lemmas -/

theorem find_map_update (posts : List Post) (postId : Nat) (f : Post → Post)
    (hf : ∀ p, (f p).id = p.id) :
    (posts.map (fun p => if p.id == postId then f p else p)).find?
        (fun p => p.id == postId)
      = (posts.find? (fun p => p.id == postId)).map f := by
  induction posts with
  | nil => rfl
  | cons q qs ih =>
    simp only [List.map_cons]
    by_cases h : q.id = postId
    · rw [if_pos (by simpa using h)]
      rw [List.find?_cons_of_pos _ (by simp [hf, h]),
        List.find?_cons_of_pos _ (by simp [h])]
      simp
    · rw [if_neg (by simpa using h)]
      rw [List.find?_cons_of_neg _ (by simp [h]),
        List.find?_cons_of_neg _ (by simp [h])]
      exact ih

theorem findPost_setPost (store : Store) (postId : Nat) (f : Post → Post)
    (hf : ∀ p, (f p).id = p.id) :
    findPost (setPost store postId f) postId = (findPost store postId).map f :=
  find_map_update store.posts postId f hf

theorem findPost_setLikes (store : Store) (l : List (Nat × Nat)) (postId : Nat) :
    findPost { store with likes := l } postId = findPost store postId := rfl

theorem likes_setPost (store : Store) (postId : Nat) (f : Post → Post) :
    (setPost store postId f).likes = store.likes := rfl

theorem likedIn_setPost (store : Store) (postId : Nat) (f : Post → Post)
    (u pid : Nat) : likedIn (setPost store postId f) u pid = likedIn store u pid := rfl

theorem likedIn_cons_self (store : Store) (l : List (Nat × Nat)) (u pid : Nat) :
    likedIn { store with likes := (u, pid) :: l } u pid = true := by
  simp [likedIn]

theorem likedIn_filter_out (store : Store) (l : List (Nat × Nat)) (u pid : Nat) :
    likedIn
      { store with likes := l.filter (fun e => !(e.1 == u && e.2 == pid)) }
      u pid = false := by
  unfold likedIn
  simp only [List.any_eq_false, List.mem_filter]
  rintro ⟨a, b⟩ ⟨-, hb⟩
  intro hcontra
  simp only [hcontra, Bool.not_true] at hb
  exact Bool.false_ne_true hb

theorem findPost_insert_self (store : Store) (post : Post) :
    findPost { store with posts := post :: store.posts } post.id = some post := by
  unfold findPost
  exact List.find?_cons_of_pos _ (by simp)

theorem findPost_setPost_fail (store : Store) (pid : Nat) :
    findPost (setPost store pid failUpdate) pid
      = (findPost store pid).map failUpdate :=
  findPost_setPost _ _ _ (fun _ => rfl)

theorem findPost_setPost_genId (store : Store) (pid : Nat) (genId : String) :
    findPost (setPost store pid (genIdUpdate genId)) pid
      = (findPost store pid).map (genIdUpdate genId) :=
  findPost_setPost _ _ _ (fun _ => rfl)

theorem findPost_setPost_complete (store : Store) (pid : Nat) (url : String) :
    findPost (setPost store pid (completeUpdate url)) pid
      = (findPost store pid).map (completeUpdate url) :=
  findPost_setPost _ _ _ (fun _ => rfl)

theorem findPost_setPost_inc (store : Store) (pid : Nat) :
    findPost (setPost store pid (fun p => { p with likesCount := p.likesCount + 1 })) pid
      = (findPost store pid).map (fun p => { p with likesCount := p.likesCount + 1 }) :=
  findPost_setPost _ _ _ (fun _ => rfl)

theorem findPost_setPost_dec (store : Store) (pid : Nat) :
    findPost (setPost store pid (fun p => { p with likesCount := p.likesCount - 1 })) pid
      = (findPost store pid).map (fun p => { p with likesCount := p.likesCount - 1 }) :=
  findPost_setPost _ _ _ (fun _ => rfl)

/-! ## Sorting lemmas -/

theorem insertDesc_perm (p : Post) (l : List Post) :
    (insertDesc p l).Perm (p :: l) := by
  induction l with
  | nil => exact List.Perm.refl _
  | cons q qs ih =>
    unfold insertDesc
    by_cases h : q.createdAt ≤ p.createdAt
    · rw [if_pos h]
    · rw [if_neg h]
      exact (ih.cons q).trans (List.Perm.swap p q qs)

theorem sortDesc_perm (l : List Post) : (sortDesc l).Perm l := by
  induction l with
  | nil => exact List.Perm.refl _
  | cons p ps ih =>
    simpa only [sortDesc] using (insertDesc_perm p (sortDesc ps)).trans (ih.cons p)

theorem insertDesc_pairwise (p : Post) (l : List Post)
    (hl : l.Pairwise (fun a b => b.createdAt ≤ a.createdAt)) :
    (insertDesc p l).Pairwise (fun a b => b.createdAt ≤ a.createdAt) := by
  induction l with
  | nil => simp [insertDesc]
  | cons q qs ih =>
    rcases List.pairwise_cons.mp hl with ⟨hq, hqs⟩
    unfold insertDesc
    by_cases h : q.createdAt ≤ p.createdAt
    · rw [if_pos h]
      refine List.pairwise_cons.mpr ⟨?_, hl⟩
      intro b hb
      rcases List.mem_cons.mp hb with rfl | hb'
      · exact h
      · exact le_trans (hq b hb') h
    · rw [if_neg h]
      refine List.pairwise_cons.mpr ⟨?_, ih hqs⟩
      intro b hb
      rcases List.mem_cons.mp ((insertDesc_perm p qs).mem_iff.mp hb) with rfl | hb'
      · exact le_of_not_le h
      · exact hq b hb'

theorem sortDesc_pairwise (l : List Post) :
    (sortDesc l).Pairwise (fun a b => b.createdAt ≤ a.createdAt) := by
  induction l with
  | nil => simp [sortDesc]
  | cons p ps ih =>
    simpa only [sortDesc] using insertDesc_pairwise p (sortDesc ps) ih

/-! ## Pagination lemmas -/

theorem connectionOf_take_posts (matching : List Post) (t : Nat) :
    (connectionOf (matching.take (t + 1)) t).posts = matching.take t := by
  unfold connectionOf
  by_cases h : t < (matching.take (t + 1)).length
  · simp only [if_pos h]
    have hlen : t + 1 ≤ matching.length := by
      rw [List.length_take] at h; omega
    rw [List.dropLast_eq_take, List.length_take, List.take_take]
    congr 1
    omega
  · simp only [if_neg h]
    have hlen : matching.length ≤ t := by
      rw [List.length_take] at h; omega
    rw [List.take_of_length_le (le_trans hlen (by omega)),
      List.take_of_length_le hlen]

theorem connectionOf_take_hasMore (matching : List Post) (t : Nat) :
    ((connectionOf (matching.take (t + 1)) t).hasMore = true ↔ t < matching.length) := by
  unfold connectionOf
  simp only [decide_eq_true_eq, List.length_take]
  omega

theorem connectionOf_nextCursor (fetched : List Post) (t : Nat) :
    (connectionOf fetched t).nextCursor
      = ((connectionOf fetched t).posts.getLast?).map (fun p => p.createdAt) := rfl

theorem connectionOf_nextCursor_none (fetched : List Post) (t : Nat) :
    ((connectionOf fetched t).nextCursor = none ↔ (connectionOf fetched t).posts = []) := by
  rw [connectionOf_nextCursor]
  simp [List.getLast?_eq_none_iff]

theorem feed_posts_eq (store : Store) (cursor : Option Nat) (limit : Nat) :
    (feed store cursor limit).posts
      = (sortDesc (store.posts.filter (feedWhere cursor))).take (min limit 50) :=
  connectionOf_take_posts _ _

theorem mem_take_sortDesc_filter (pool : List Post) (pred : Post → Bool) (n : Nat)
    (p : Post) (hp : p ∈ (sortDesc (pool.filter pred)).take n) : pred p = true := by
  have h1 : p ∈ sortDesc (pool.filter pred) := List.mem_of_mem_take hp
  have h2 : p ∈ pool.filter pred := (sortDesc_perm _).mem_iff.mp h1
  exact (List.mem_filter.mp h2).2

theorem feedWhere_status (cursor : Option Nat) (p : Post)
    (h : feedWhere cursor p = true) : p.status = PostStatus.completed := by
  unfold feedWhere at h
  rw [Bool.and_eq_true] at h
  exact beq_iff_eq.mp h.1

/-! ## Lifecycle lemmas -/

theorem createPost_ok (store : Store) (uid : Nat) (prompt : String) (newId now : Nat)
    (s0 : Store) (post : Post)
    (h : createPost store (some uid) prompt newId now = Except.ok (s0, post)) :
    validatePrompt prompt = none ∧
    post =
      { id := newId
        userId := uid
        prompt := promptTrim prompt
        imageUrl := ""
        leonardoGenerationId := none
        status := PostStatus.generating
        likesCount := 0
        createdAt := now } ∧
    s0 = { store with posts := post :: store.posts } := by
  unfold createPost at h
  cases hv : validatePrompt prompt with
  | some msg => rw [hv] at h; simp at h
  | none =>
    rw [hv] at h
    simp only [Except.ok.injEq, Prod.mk.injEq] at h
    exact ⟨rfl, h.2.symm, by rw [← h.1, ← h.2]⟩

theorem pollLoop_pending (ps : Nat → GenResult)
    (hp : ∀ i, (ps i).status = GenStatus.pending) :
    ∀ fuel attempts,
      pollLoop ps fuel attempts = (Except.error "Generation timed out", attempts + fuel) := by
  intro fuel
  induction fuel with
  | zero => intro a; simp [pollLoop]
  | succ n ih =>
    intro a
    show (match (ps a).status with
      | GenStatus.complete =>
        match (ps a).imageUrl with
        | some url => (Except.ok url, a + 1)
        | none => pollLoop ps n (a + 1)
      | GenStatus.failed => (Except.error "Image generation failed", a + 1)
      | GenStatus.pending => pollLoop ps n (a + 1)) = _
    rw [hp a, ih (a + 1)]
    have : a + 1 + n = a + (n + 1) := by omega
    rw [this]

/-! ## Feed-window lemmas -/

theorem applyInsert_nodup (window : List FeedItem) (post : FeedItem)
    (h : nodupIds window) : nodupIds (applyInsert window post) := by
  unfold applyInsert
  by_cases hx : window.any (fun q => q.id == post.id)
  · rw [if_pos hx]; exact h
  · rw [if_neg hx]
    unfold nodupIds at h ⊢
    simp only [List.map_cons, List.nodup_cons]
    refine ⟨fun hmem => ?_, h⟩
    apply hx
    rw [List.any_eq_true]
    rcases List.mem_map.mp hmem with ⟨q, hq, hid⟩
    exact ⟨q, hq, by simp [hid]⟩

theorem mergePage_nodup (window page : List FeedItem)
    (hw : nodupIds window) (hp : nodupIds page)
    (hd : ∀ p ∈ page, ∀ q ∈ window, p.id ≠ q.id) :
    nodupIds (mergePage window page) := by
  unfold mergePage nodupIds at *
  rw [List.map_append, List.nodup_append]
  refine ⟨hw, hp, ?_⟩
  intro a ha hb
  rcases List.mem_map.mp ha with ⟨q, hq, rfl⟩
  rcases List.mem_map.mp hb with ⟨r, hr, hid⟩
  exact hd r hr q hq hid

theorem applyOps_nodup (ops : List FeedOp) :
    ∀ window, nodupIds window → pagesDisjoint window ops →
      nodupIds (applyOps window ops) := by
  induction ops with
  | nil => intro w hw _; exact hw
  | cons op rest ih =>
    intro w hw hd
    unfold pagesDisjoint at hd
    obtain ⟨hop, hrest⟩ := hd
    have hw' : nodupIds (applyOp w op) := by
      cases op with
      | loadMore page => exact mergePage_nodup w page hw hop.1 hop.2
      | insert post => exact applyInsert_nodup w post hw
    simpa only [applyOps, List.foldl_cons] using ih (applyOp w op) hw' hrest

/-! ## Like-ledger lemmas -/

theorem likePost_of_liked (store : Store) (u pid : Nat) (p : Post)
    (hp : findPost store pid = some p) (hl : likedIn store u pid = true) :
    likePost store u pid = Except.ok (store, some p) := by
  unfold likePost
  rw [hp]
  simp [hl, hp]

theorem likePost_of_not_liked (store : Store) (u pid : Nat) (p : Post)
    (hp : findPost store pid = some p) (hl : likedIn store u pid = false) :
    likePost store u pid =
      Except.ok
        (setPost { store with likes := (u, pid) :: store.likes } pid
          (fun q => { q with likesCount := q.likesCount + 1 }),
         some { p with likesCount := p.likesCount + 1 }) := by
  unfold likePost
  rw [hp]
  have hfind : findPost
      (setPost { store with likes := (u, pid) :: store.likes } pid
        (fun q => { q with likesCount := q.likesCount + 1 })) pid
      = some { p with likesCount := p.likesCount + 1 } := by
    rw [findPost_setPost_inc, findPost_setLikes, hp]
    rfl
  simp [hl, hfind]

theorem unlikePost_of_liked (store : Store) (u pid : Nat) (p : Post)
    (hp : findPost store pid = some p) (hl : likedIn store u pid = true) :
    unlikePost store u pid =
      Except.ok
        (setPost
          { store with likes := store.likes.filter (fun e => !(e.1 == u && e.2 == pid)) }
          pid (fun q => { q with likesCount := q.likesCount - 1 }),
         some { p with likesCount := p.likesCount - 1 }) := by
  unfold unlikePost
  have hfind : findPost
      (setPost
        { store with likes := store.likes.filter (fun e => !(e.1 == u && e.2 == pid)) }
        pid (fun q => { q with likesCount := q.likesCount - 1 })) pid
      = some { p with likesCount := p.likesCount - 1 } := by
    rw [findPost_setPost_dec, findPost_setLikes, hp]
    rfl
  simp only [hl, eq_self_iff_true, if_true]
  rw [hfind]

theorem unlikePost_of_not_liked (store : Store) (u pid : Nat)
    (hl : likedIn store u pid = false) :
    unlikePost store u pid = Except.ok (store, findPost store pid) := by
  unfold unlikePost
  simp [hl]

theorem statuses_setPost (store : Store) (pid : Nat) (f : Post → Post)
    (hf : ∀ p, (f p).status = p.status) :
    (setPost store pid f).posts.map (fun q => q.status)
      = store.posts.map (fun q => q.status) := by
  unfold setPost
  rw [List.map_map]
  apply List.map_congr_left
  intro q hq
  show (if q.id == pid then f q else q).status = q.status
  split
  · exact hf q
  · rfl

theorem likePost_statuses (s : Store) (u pid : Nat) (s' : Store) (res : Option Post)
    (h : likePost s u pid = Except.ok (s', res)) :
    s'.posts.map (fun q => q.status) = s.posts.map (fun q => q.status) := by
  cases hp : findPost s pid with
  | none =>
    unfold likePost at h
    rw [hp] at h
    simp at h
  | some p =>
    by_cases hl : likedIn s u pid = true
    · rw [likePost_of_liked s u pid p hp hl] at h
      simp only [Except.ok.injEq, Prod.mk.injEq] at h
      rw [← h.1]
    · have hl' : likedIn s u pid = false := by
        cases hcase : likedIn s u pid
        · rfl
        · exact absurd hcase hl
      rw [likePost_of_not_liked s u pid p hp hl'] at h
      simp only [Except.ok.injEq, Prod.mk.injEq] at h
      rw [← h.1]
      exact statuses_setPost _ _ _ (fun _ => rfl)

theorem unlikePost_statuses (s : Store) (u pid : Nat) (s' : Store) (res : Option Post)
    (h : unlikePost s u pid = Except.ok (s', res)) :
    s'.posts.map (fun q => q.status) = s.posts.map (fun q => q.status) := by
  by_cases hl : likedIn s u pid = true
  · cases hp : findPost s pid with
    | none =>
      unfold unlikePost at h
      rw [if_pos hl] at h
      have hfind : findPost
          (setPost
            { s with likes := s.likes.filter (fun e => !(e.1 == u && e.2 == pid)) }
            pid (fun q => { q with likesCount := q.likesCount - 1 })) pid = none := by
        rw [findPost_setPost_dec, findPost_setLikes, hp]
        rfl
      simp only [hfind] at h
      exact absurd h (by simp)
    | some p =>
      rw [unlikePost_of_liked s u pid p hp hl] at h
      simp only [Except.ok.injEq, Prod.mk.injEq] at h
      rw [← h.1]
      exact statuses_setPost _ _ _ (fun _ => rfl)
  · have hl' : likedIn s u pid = false := by
      cases hcase : likedIn s u pid
      · rfl
      · exact absurd hcase hl
    rw [unlikePost_of_not_liked s u pid hl'] at h
    simp only [Except.ok.injEq, Prod.mk.injEq] at h
    rw [← h.1]

/-! ## Validation lemma -/

theorem validatePrompt_spec (prompt : String) :
    validatePrompt prompt =
      (if (promptTrim prompt).length < promptMinLength ∨
          promptMaxLength < (promptTrim prompt).length
       then some promptMessage else none) := by
  unfold validatePrompt
  by_cases h : (promptTrim prompt).length < promptMinLength ∨
      promptMaxLength < (promptTrim prompt).length
  · rw [if_pos h]
    have hb : ((promptTrim prompt).length < promptMinLength
        || (promptTrim prompt).length > promptMaxLength) = true := by
      rcases h with h | h <;> simp [h]
    simp [hb]
  · rw [if_neg h]
    push_neg at h
    have hb : ((promptTrim prompt).length < promptMinLength
        || (promptTrim prompt).length > promptMaxLength) = false := by
      simp only [Bool.or_eq_false_iff, decide_eq_false_iff_not]
      constructor <;> omega
    simp [hb]

/-! ## Concrete fixtures for witnesses and counterexamples -/

/-- A completed post used by concrete witnesses. -/
def post1 : Post :=
  { id := 1
    userId := 7
    prompt := "a cat"
    imageUrl := "img"
    leonardoGenerationId := none
    status := PostStatus.completed
    likesCount := 0
    createdAt := 100 }

/-- A store holding `post1` and its owner, with no likes. -/
def store1 : Store :=
  { posts := [post1], users := [{ id := 7, username := "alice" }], likes := [] }

/-- `store1` with user 2 already liking post 1. -/
def store1Liked : Store := { store1 with likes := [(2, 1)] }

/-- `post1` after one like: the completed record with `likesCount` 1. -/
def post1L : Post := { post1 with likesCount := 1 }

/-- `store1` after user 2 likes post 1: the completed record mutated. -/
def store1L : Store :=
  { posts := [post1L], users := [{ id := 7, username := "alice" }], likes := [(2, 1)] }

/-- A completed post with id and sort key `i`. -/
def cPost (i : Nat) : Post :=
  { id := i
    userId := 7
    prompt := "p"
    imageUrl := "u"
    leonardoGenerationId := none
    status := PostStatus.completed
    likesCount := 0
    createdAt := i }

/-- A store with 52 completed posts. -/
def bigStore : Store :=
  { posts := (List.range 52).map cPost, users := [], likes := [] }

/-- A provider whose generation succeeds on the first poll. -/
def okProvider : Provider :=
  { createGeneration := fun _ => Except.ok "gen-1"
    pollStatus := fun _ => { status := GenStatus.complete, imageUrl := some "img-url" } }

/-- A provider that reports `PENDING` on every poll. -/
def pendingProvider : Provider :=
  { createGeneration := fun _ => Except.ok "gen-1"
    pollStatus := fun _ => { status := GenStatus.pending, imageUrl := none } }

/-- The record `createPost emptyStore (some 1) "a cat" 1 0` creates. -/
def postC : Post :=
  { id := 1
    userId := 1
    prompt := "a cat"
    imageUrl := ""
    leonardoGenerationId := none
    status := PostStatus.generating
    likesCount := 0
    createdAt := 0 }

/-- The store after that `createPost`. -/
def storeC : Store := { posts := [postC], users := [], likes := [] }

/-! ## Claims -/

/-- Claim C4: for every user and existing post, when the `(userId, postId)`
like edge already exists, `likePost` returns the current post state with the
store unchanged — so `likesCount` is not incremented — and without an
error: a duplicate like is an idempotent no-op, not a conflict. -/
theorem c4_duplicate_like_idempotent (store : Store) (u pid : Nat) (p : Post)
    (hp : findPost store pid = some p) (hl : likedIn store u pid = true) :
    likePost store u pid = Except.ok (store, some p) :=
  likePost_of_liked store u pid p hp hl

/-- Witness for C4: user 2 already likes post 1 in `store1Liked`; the
duplicate like returns the store and post unchanged. -/
theorem c4_duplicate_like_idempotent_witness :
    likePost store1Liked 2 1 = Except.ok (store1Liked, some post1) :=
  c4_duplicate_like_idempotent store1Liked 2 1 post1 (by decide) (by decide)

/-- Claim C5: for every user and existing post, toggling the like relation
twice in succession (per the current liked state) returns the liked boolean
and the post's `likesCount` to their original values, and the second toggle
is a genuine inverse of the first, moving the count by exactly 1 in the
opposite direction. -/
theorem c5_toggle_twice_inverse (store : Store) (u pid : Nat) (p : Post)
    (hp : findPost store pid = some p) :
    ∃ s1 p1 s2 p2,
      toggle store u pid = Except.ok (s1, some p1) ∧
      toggle s1 u pid = Except.ok (s2, some p2) ∧
      p2.likesCount = p.likesCount ∧
      likedIn s2 u pid = likedIn store u pid ∧
      ((p1.likesCount = p.likesCount + 1 ∧ p2.likesCount = p1.likesCount - 1) ∨
       (p1.likesCount = p.likesCount - 1 ∧ p2.likesCount = p1.likesCount + 1)) := by
  by_cases hl : likedIn store u pid = true
  · -- currently liked: the first toggle unlikes, the second likes again
    have h1 : toggle store u pid =
        Except.ok
          (setPost
            { store with likes := store.likes.filter (fun e => !(e.1 == u && e.2 == pid)) }
            pid (fun q => { q with likesCount := q.likesCount - 1 }),
           some { p with likesCount := p.likesCount - 1 }) := by
      unfold toggle
      rw [if_pos hl]
      exact unlikePost_of_liked store u pid p hp hl
    have hfind1 : findPost
        (setPost
          { store with likes := store.likes.filter (fun e => !(e.1 == u && e.2 == pid)) }
          pid (fun q => { q with likesCount := q.likesCount - 1 })) pid
        = some { p with likesCount := p.likesCount - 1 } := by
      rw [findPost_setPost_dec, findPost_setLikes, hp]
      rfl
    have hl1 : likedIn
        (setPost
          { store with likes := store.likes.filter (fun e => !(e.1 == u && e.2 == pid)) }
          pid (fun q => { q with likesCount := q.likesCount - 1 })) u pid = false := by
      rw [likedIn_setPost]
      exact likedIn_filter_out store store.likes u pid
    have h2 := likePost_of_not_liked _ u pid _ hfind1 hl1
    have ht : toggle
        (setPost
          { store with likes := store.likes.filter (fun e => !(e.1 == u && e.2 == pid)) }
          pid (fun q => { q with likesCount := q.likesCount - 1 })) u pid
        = likePost
          (setPost
            { store with likes := store.likes.filter (fun e => !(e.1 == u && e.2 == pid)) }
            pid (fun q => { q with likesCount := q.likesCount - 1 })) u pid := by
      unfold toggle
      rw [if_neg (by rw [hl1]; exact Bool.false_ne_true)]
    refine ⟨_, _, _, _, h1, ht.trans h2, ?_, ?_, ?_⟩
    · simp only []
      omega
    · rw [likedIn_setPost, likedIn_cons_self, hl]
    · right
      exact ⟨rfl, rfl⟩
  · -- not liked: the first toggle likes, the second unlikes
    have hl' : likedIn store u pid = false := by
      cases h : likedIn store u pid
      · rfl
      · exact absurd h hl
    have h1 : toggle store u pid =
        Except.ok
          (setPost { store with likes := (u, pid) :: store.likes }
            pid (fun q => { q with likesCount := q.likesCount + 1 }),
           some { p with likesCount := p.likesCount + 1 }) := by
      unfold toggle
      rw [if_neg (by rw [hl']; exact Bool.false_ne_true)]
      exact likePost_of_not_liked store u pid p hp hl'
    have hfind1 : findPost
        (setPost { store with likes := (u, pid) :: store.likes }
          pid (fun q => { q with likesCount := q.likesCount + 1 })) pid
        = some { p with likesCount := p.likesCount + 1 } := by
      rw [findPost_setPost_inc, findPost_setLikes, hp]
      rfl
    have hl1 : likedIn
        (setPost { store with likes := (u, pid) :: store.likes }
          pid (fun q => { q with likesCount := q.likesCount + 1 })) u pid = true := by
      rw [likedIn_setPost]
      exact likedIn_cons_self store store.likes u pid
    have h2 := unlikePost_of_liked _ u pid _ hfind1 hl1
    have ht : toggle
        (setPost { store with likes := (u, pid) :: store.likes }
          pid (fun q => { q with likesCount := q.likesCount + 1 })) u pid
        = unlikePost
          (setPost { store with likes := (u, pid) :: store.likes }
            pid (fun q => { q with likesCount := q.likesCount + 1 })) u pid := by
      unfold toggle
      rw [if_pos hl1]
    refine ⟨_, _, _, _, h1, ht.trans h2, ?_, ?_, ?_⟩
    · simp only []
      omega
    · rw [likedIn_setPost, likes_setPost]
      rw [hl']
      exact likedIn_filter_out
        { store with likes := (u, pid) :: store.likes } ((u, pid) :: store.likes) u pid
    · left
      exact ⟨rfl, rfl⟩

/-- Witness for C5: toggling twice on `store1` (user 2, post 1, initially
not liked) restores the original count and liked state. -/
theorem c5_toggle_twice_inverse_witness :
    ∃ s1 p1 s2 p2,
      toggle store1 2 1 = Except.ok (s1, some p1) ∧
      toggle s1 2 1 = Except.ok (s2, some p2) ∧
      p2.likesCount = post1.likesCount ∧
      likedIn s2 2 1 = likedIn store1 2 1 ∧
      ((p1.likesCount = post1.likesCount + 1 ∧ p2.likesCount = p1.likesCount - 1) ∨
       (p1.likesCount = post1.likesCount - 1 ∧ p2.likesCount = p1.likesCount + 1)) :=
  c5_toggle_twice_inverse store1 2 1 post1 (by decide)

/-- Claim C8: for every owner and prompt, `createPost` fails synchronously
with the validation error exactly when the trimmed prompt is shorter than 3
or longer than 1000 characters; otherwise the new record — trimmed prompt,
empty image, status `generating` — is inserted and returned immediately,
with no effect of the asynchronous generation on the returned store. -/
theorem c8_submit_validation (store : Store) (uid : Nat) (prompt : String)
    (newId now : Nat) :
    ((∃ msg, createPost store (some uid) prompt newId now = Except.error msg) ↔
      ((promptTrim prompt).length < 3 ∨ 1000 < (promptTrim prompt).length)) ∧
    (∀ s' post, createPost store (some uid) prompt newId now = Except.ok (s', post) →
      post.status = PostStatus.generating ∧ post.prompt = promptTrim prompt ∧
      post.imageUrl = "" ∧ post.id = newId ∧ post.userId = uid ∧
      s' = { store with posts := post :: store.posts }) := by
  constructor
  · constructor
    · rintro ⟨msg, hmsg⟩
      by_contra hlen
      push_neg at hlen
      have hcond : ¬((promptTrim prompt).length < promptMinLength ∨
          promptMaxLength < (promptTrim prompt).length) := by
        unfold promptMinLength promptMaxLength
        omega
      have hv : validatePrompt prompt = none := by
        rw [validatePrompt_spec, if_neg hcond]
      unfold createPost at hmsg
      rw [hv] at hmsg
      simp at hmsg
    · intro hlen
      refine ⟨promptMessage, ?_⟩
      have hv : validatePrompt prompt = some promptMessage := by
        rw [validatePrompt_spec, if_pos]
        exact hlen
      unfold createPost
      rw [hv]
  · intro s' post h
    obtain ⟨-, hpost, hs⟩ := createPost_ok _ _ _ _ _ _ _ h
    subst hpost
    exact ⟨rfl, rfl, rfl, rfl, rfl, hs⟩

/-- Witness for C8: the two-character prompt "hi" is rejected, and "a cat"
creates a `generating` record. -/
theorem c8_submit_validation_witness :
    (∃ msg, createPost emptyStore (some 1) "hi" 1 0 = Except.error msg) ∧
    (postC.status = PostStatus.generating ∧ postC.prompt = promptTrim "a cat" ∧
      postC.imageUrl = "" ∧ postC.id = 1 ∧ postC.userId = 1 ∧
      storeC = { emptyStore with posts := postC :: emptyStore.posts }) :=
  ⟨(c8_submit_validation emptyStore 1 "hi" 1 0).1.mpr (by decide),
   (c8_submit_validation emptyStore 1 "a cat" 1 0).2 storeC postC rfl⟩

/-- Claim C9: every post returned by the `feed` and `userPosts` queries has
status `completed` (generating or failed posts never appear in a page), and
a user's `postsCount` counts only that user's completed posts. -/
theorem c9_only_completed (store : Store) (cursor : Option Nat) (limit : Nat)
    (uid : Nat) :
    (∀ p ∈ (feed store cursor limit).posts, p.status = PostStatus.completed) ∧
    (∀ username conn, userPosts store username cursor limit = Except.ok conn →
      ∀ p ∈ conn.posts, p.status = PostStatus.completed) ∧
    postsCount store uid =
      ((store.posts.filter (fun p => p.userId == uid)).filter
        (fun p => p.status == PostStatus.completed)).length := by
  refine ⟨?_, ?_, ?_⟩
  · intro p hp
    rw [feed_posts_eq] at hp
    exact feedWhere_status cursor p (mem_take_sortDesc_filter _ _ _ p hp)
  · intro username conn hconn p hp
    unfold userPosts at hconn
    cases hu : store.users.find? (fun u => u.username == username) with
    | none => rw [hu] at hconn; simp at hconn
    | some user =>
      rw [hu] at hconn
      simp only [Except.ok.injEq] at hconn
      subst hconn
      have hposts :
          (connectionOf (userPostsFetched store user.id cursor limit) (min limit 50)).posts
            = (sortDesc (store.posts.filter
                (fun q => q.userId == user.id && feedWhere cursor q))).take (min limit 50) :=
        connectionOf_take_posts _ _
      rw [hposts] at hp
      have hw := mem_take_sortDesc_filter _ _ _ p hp
      rw [Bool.and_eq_true] at hw
      exact feedWhere_status cursor p hw.2
  · unfold postsCount
    rw [List.filter_filter]
    apply congrArg
    apply List.filter_congr
    intro p hp
    exact Bool.and_comm _ _

/-- Witness for C9: `post1` is in the feed of `store1` and is completed. -/
theorem c9_only_completed_witness : post1.status = PostStatus.completed :=
  (c9_only_completed store1 none 20 7).1 post1 (by decide)

/-- Claim C10: for every `feed` or `userPosts` call, the returned page holds
at most `min limit 50` posts — the requested page size is silently capped
at 50. -/
theorem c10_page_size_capped (store : Store) (cursor : Option Nat) (limit : Nat) :
    (feed store cursor limit).posts.length ≤ min limit 50 ∧
    (∀ username conn, userPosts store username cursor limit = Except.ok conn →
      conn.posts.length ≤ min limit 50) := by
  constructor
  · rw [feed_posts_eq]
    exact List.length_take_le _ _
  · intro username conn hconn
    unfold userPosts at hconn
    cases hu : store.users.find? (fun u => u.username == username) with
    | none => rw [hu] at hconn; simp at hconn
    | some user =>
      rw [hu] at hconn
      simp only [Except.ok.injEq] at hconn
      subst hconn
      have hposts :
          (connectionOf (userPostsFetched store user.id cursor limit) (min limit 50)).posts
            = (sortDesc (store.posts.filter
                (fun q => q.userId == user.id && feedWhere cursor q))).take (min limit 50) :=
        connectionOf_take_posts _ _
      rw [hposts]
      exact List.length_take_le _ _

/-- Witness for C10: a concrete `userPosts` page for alice in `store1`. -/
theorem c10_page_size_capped_witness :
    (feed store1 none 20).posts.length ≤ min 20 50 ∧
    (connectionOf (userPostsFetched store1 7 none 20) (min 20 50)).posts.length
      ≤ min 20 50 :=
  ⟨(c10_page_size_capped store1 none 20).1,
   (c10_page_size_capped store1 none 20).2 "alice" _ rfl⟩

/-- Counterexample to claim C6 as stated: at `limit = 51` the store is
queried for `min(51, 50) + 1 = 51` records, not `limit + 1 = 52`; on a
store with 52 completed posts the returned page has 50 posts, not 51. -/
theorem c6_limit_plus_one_counterexample :
    feedQueryTake 51 = 51 ∧ (51 : Nat) ≠ 51 + 1 ∧
    (feed bigStore none 51).posts.length = 50 ∧ (50 : Nat) ≠ 51 := by
  refine ⟨rfl, by omega, ?_, by omega⟩
  decide

/-- Claim C6 (amended): with `take = min(limit, 50)`, the store is queried
for `take + 1` records ordered descending by `createdAt` and matching the
where-clause; `hasMore` is true exactly when more than `take` records match,
in which case the extra fetched record is dropped — the returned page is
always the first `take` matching records; `nextCursor` is the last returned
record's sort key and is null exactly when the page is empty. -/
theorem c6_feed_pagination (store : Store) (cursor : Option Nat) (limit : Nat) :
    feedFetched store cursor limit
      = (sortDesc (store.posts.filter (feedWhere cursor))).take (min limit 50 + 1) ∧
    feedQueryTake limit = min limit 50 + 1 ∧
    (feed store cursor limit).posts
      = (sortDesc (store.posts.filter (feedWhere cursor))).take (min limit 50) ∧
    ((feed store cursor limit).hasMore = true ↔
      min limit 50 < (sortDesc (store.posts.filter (feedWhere cursor))).length) ∧
    ((feed store cursor limit).nextCursor = none ↔ (feed store cursor limit).posts = []) ∧
    (feed store cursor limit).nextCursor
      = ((feed store cursor limit).posts.getLast?).map (fun p => p.createdAt) ∧
    (feed store cursor limit).posts.Pairwise (fun a b => b.createdAt ≤ a.createdAt) := by
  refine ⟨rfl, rfl, feed_posts_eq store cursor limit,
    connectionOf_take_hasMore _ _, connectionOf_nextCursor_none _ _,
    connectionOf_nextCursor _ _, ?_⟩
  rw [feed_posts_eq]
  exact List.Pairwise.sublist (List.take_sublist _ _) (sortDesc_pairwise _)

/-- Counterexample to claim C3 as stated: the Apollo `feed.merge` type
policy concatenates pages without deduplication and `loadMore` has no
in-flight guard, so the interleaving that merges the same page twice (two
overlapping `loadMore` calls with the same cursor) duplicates an id. -/
theorem c3_duplicate_id_counterexample :
    applyOps []
        [FeedOp.loadMore [{ id := 1, createdAt := 5 }],
         FeedOp.loadMore [{ id := 1, createdAt := 5 }]]
      = [{ id := 1, createdAt := 5 }, { id := 1, createdAt := 5 }] ∧
    ¬ nodupIds
        (applyOps []
          [FeedOp.loadMore [{ id := 1, createdAt := 5 }],
           FeedOp.loadMore [{ id := 1, createdAt := 5 }]]) := by
  constructor
  · rfl
  · decide

/-- Claim C3 (amended): real-time `post-created` insertions never create a
duplicate (the subscription handler drops an incoming post whose id is
already present), and an interleaving of `loadMore` merges and insertions
keeps all ids distinct provided every merged page is id-disjoint from the
window at merge time — the merge itself performs no deduplication. -/
theorem c3_window_nodup (window : List FeedItem) (ops : List FeedOp)
    (hw : nodupIds window) (hd : pagesDisjoint window ops) :
    nodupIds (applyOps window ops) :=
  applyOps_nodup ops window hw hd

/-- Witness for C3: an insertion followed by a disjoint page merge on a
one-item window keeps ids distinct. -/
theorem c3_window_nodup_witness :
    nodupIds
      (applyOps [{ id := 1, createdAt := 10 }]
        [FeedOp.insert { id := 2, createdAt := 20 },
         FeedOp.loadMore [{ id := 0, createdAt := 5 }]]) :=
  c3_window_nodup [{ id := 1, createdAt := 10 }]
    [FeedOp.insert { id := 2, createdAt := 20 },
     FeedOp.loadMore [{ id := 0, createdAt := 5 }]]
    (by decide) (by decide)

/-- Counterexample to claim C2 as stated, at two concrete inputs: (i) there
is no QUEUED status — the code's status enum has exactly the three values
`generating`, `completed` and `failed`, and the record a fresh `createPost`
inserts starts in `generating`, not QUEUED; (ii) a COMPLETED record is not
immutable — on `store1`, where post 1 is completed with `likesCount` 0,
`likePost` succeeds and afterwards the stored record's `likesCount` field
is 1. -/
theorem c2_no_queued_state :
    (∀ s : PostStatus, s = PostStatus.generating ∨ s = PostStatus.completed ∨
      s = PostStatus.failed) ∧
    (∃ s0 post,
      createPost emptyStore (some 1) "a cat" 1 0 = Except.ok (s0, post) ∧
      post.status = PostStatus.generating) ∧
    (findPost store1 1 = some post1 ∧
      post1.status = PostStatus.completed ∧
      post1.likesCount = 0 ∧
      likePost store1 2 1 = Except.ok (store1L, some post1L) ∧
      findPost store1L 1 = some post1L ∧
      post1L.status = PostStatus.completed ∧
      post1L.likesCount = 1) := by
  refine ⟨?_, ⟨storeC, postC, rfl, rfl⟩, by decide, rfl, rfl, by rfl, by decide, rfl, rfl⟩
  intro s
  cases s
  · exact Or.inl rfl
  · exact Or.inr (Or.inl rfl)
  · exact Or.inr (Or.inr rfl)

/-- Claim C2 (amended): a newly submitted job starts in GENERATING, and the
status sequence a job's record goes through is strictly forward along
GENERATING → (COMPLETED or FAILED): it is one of
[generating, failed], [generating, generating, completed] or
[generating, generating, failed] — never revisiting an earlier status, and
ending at the terminal status with no later lifecycle write. Moreover no
other store operation changes any record's status: `likePost` and
`unlikePost` leave the status of every post unchanged (they mutate only
`likesCount`), so once a record is COMPLETED or FAILED its status in
particular never changes again, though the record is not immutable. -/
theorem c2_status_strictly_forward (provider : Provider) (store : Store)
    (uid : Nat) (prompt : String) (newId now : Nat) (s0 : Store) (post : Post)
    (hok : createPost store (some uid) prompt newId now = Except.ok (s0, post)) :
    post.status = PostStatus.generating ∧
    (jobStatuses provider prompt s0 post.id
        = [PostStatus.generating, PostStatus.failed] ∨
      jobStatuses provider prompt s0 post.id
        = [PostStatus.generating, PostStatus.generating, PostStatus.completed] ∨
      jobStatuses provider prompt s0 post.id
        = [PostStatus.generating, PostStatus.generating, PostStatus.failed]) ∧
    (∀ s u pid s' res, likePost s u pid = Except.ok (s', res) →
      s'.posts.map (fun q => q.status) = s.posts.map (fun q => q.status)) ∧
    (∀ s u pid s' res, unlikePost s u pid = Except.ok (s', res) →
      s'.posts.map (fun q => q.status) = s.posts.map (fun q => q.status)) := by
  obtain ⟨-, hpost, hs0⟩ := createPost_ok _ _ _ _ _ _ _ hok
  have hstat : post.status = PostStatus.generating := by rw [hpost]
  refine ⟨hstat, ?_,
    fun s u pid s' res h => likePost_statuses s u pid s' res h,
    fun s u pid s' res h => unlikePost_statuses s u pid s' res h⟩
  have hfind : findPost s0 post.id = some post := by
    rw [hs0]
    exact findPost_insert_self store post
  unfold jobStatuses runGenerationTrace
  cases hgen : provider.createGeneration prompt with
  | error e =>
    simp [hfind, findPost_setPost_fail, hstat, failUpdate]
  | ok genId =>
    cases hpoll : (pollForCompletion provider.pollStatus 30).fst with
    | error e =>
      simp [hfind, findPost_setPost_fail, findPost_setPost_genId, hstat,
        failUpdate, genIdUpdate]
    | ok url =>
      simp [hfind, findPost_setPost_complete, findPost_setPost_genId, hstat,
        completeUpdate, genIdUpdate]

/-- Witness for C2 (amended) at concrete inputs: the successful run's status
sequence is [generating, generating, completed], and liking/unliking the
completed post 1 of `store1` leaves every stored status unchanged. -/
theorem c2_status_strictly_forward_witness :
    postC.status = PostStatus.generating ∧
    (jobStatuses okProvider "a cat" storeC postC.id
        = [PostStatus.generating, PostStatus.failed] ∨
      jobStatuses okProvider "a cat" storeC postC.id
        = [PostStatus.generating, PostStatus.generating, PostStatus.completed] ∨
      jobStatuses okProvider "a cat" storeC postC.id
        = [PostStatus.generating, PostStatus.generating, PostStatus.failed]) ∧
    store1L.posts.map (fun q => q.status) = store1.posts.map (fun q => q.status) ∧
    store1.posts.map (fun q => q.status) = store1.posts.map (fun q => q.status) := by
  have h := c2_status_strictly_forward okProvider emptyStore 1 "a cat" 1 0 storeC postC rfl
  exact ⟨h.1, h.2.1,
    h.2.2.1 store1 2 1 store1L (some post1L) (by rfl),
    h.2.2.2 store1 2 1 store1 (findPost store1 1) (by rfl)⟩

/-- Claim C7: when the provider reports pending on every poll, polling
stops after exactly the 30-attempt budget with a timeout, the job's record
is finalized as FAILED (the terminal write happens exactly once in the
lifecycle), and a status query on the post-lifecycle store returns
FAILED. -/
theorem c7_poll_budget (provider : Provider) (store : Store) (uid : Nat)
    (prompt : String) (newId now : Nat) (s0 : Store) (post : Post) (genId : String)
    (hok : createPost store (some uid) prompt newId now = Except.ok (s0, post))
    (hgen : provider.createGeneration prompt = Except.ok genId)
    (hpending : ∀ i, (provider.pollStatus i).status = GenStatus.pending) :
    pollForCompletion provider.pollStatus 30
        = (Except.error "Generation timed out", 30) ∧
    (findPost (runGeneration provider prompt s0 post.id).fst post.id).map
        (fun q => q.status) = some PostStatus.failed ∧
    (jobStatuses provider prompt s0 post.id).countP
        (fun s => statusRank s == 1) = 1 := by
  have hpoll : pollForCompletion provider.pollStatus 30
      = (Except.error "Generation timed out", 30) := by
    unfold pollForCompletion
    simpa using pollLoop_pending provider.pollStatus hpending 30 0
  obtain ⟨-, hpost, hs0⟩ := createPost_ok _ _ _ _ _ _ _ hok
  have hstat : post.status = PostStatus.generating := by rw [hpost]
  have hfind : findPost s0 post.id = some post := by
    rw [hs0]
    exact findPost_insert_self store post
  refine ⟨hpoll, ?_, ?_⟩
  · unfold runGeneration runGenerationTrace
    rw [hgen, hpoll]
    simp [hfind, findPost_setPost_fail, findPost_setPost_genId, failUpdate,
      genIdUpdate]
  · unfold jobStatuses runGenerationTrace
    rw [hgen, hpoll]
    simp [hfind, findPost_setPost_fail, findPost_setPost_genId, failUpdate,
      genIdUpdate, hstat, statusRank, List.countP_cons]

/-- Witness for C7 at the always-pending provider and the concrete job. -/
theorem c7_poll_budget_witness :
    pollForCompletion pendingProvider.pollStatus 30
        = (Except.error "Generation timed out", 30) ∧
    (findPost (runGeneration pendingProvider "a cat" storeC postC.id).fst postC.id).map
        (fun q => q.status) = some PostStatus.failed ∧
    (jobStatuses pendingProvider "a cat" storeC postC.id).countP
        (fun s => statusRank s == 1) = 1 :=
  c7_poll_budget pendingProvider emptyStore 1 "a cat" 1 0 storeC postC "gen-1"
    rfl rfl (fun _ => rfl)

/-- Claim C1 (against the code): the generation lifecycle publishes no
pub/sub event at all — here a job that reaches the terminal COMPLETED state
publishes an empty event list, not exactly one `post-created` event; the
source's resolvers contain no `pubsub.publish` call although the API
declares the `postCreated` subscription. -/
theorem c1_no_terminal_event_published :
    ∃ s0 post,
      createPost emptyStore (some 1) "a cat" 1 0 = Except.ok (s0, post) ∧
      (findPost (runGeneration okProvider "a cat" s0 post.id).fst post.id).map
        (fun q => q.status) = some PostStatus.completed ∧
      (runGeneration okProvider "a cat" s0 post.id).snd = [] :=
  ⟨storeC, postC, rfl, rfl, rfl⟩

end AIPics
